import Mathlib

/-!
Verification development for the Ledger & Market-Data Reconciliation Engine
of the TWStock paper-trading application.

The definitions below are a shallow embedding of the TypeScript source:
  * `src/services/stockUtils.ts` — `calculateSMA`, `generateHistory`,
    `updateStockWithRealData` (the QuoteReconciler merge),
  * `src/App.tsx` — `handleTrade` (the Ledger's `executeTrade`),
  * `src/components/StockDetail.tsx` — `handleExecuteTrade` (the caller-side
    guard around `handleTrade`).

JavaScript numbers are modelled as exact rationals (`ℚ`); a JS object used as
a string-keyed map is modelled as a function `String → Option _`; optional
fields of a partial quote are `Option ℚ`; `Math.random()` is modelled by an
explicit stream of sample values passed as a parameter.
-/

/-- Side of a trade, `'BUY' | 'SELL'` from `src/types.ts`. -/
inductive TradeType where
  | BUY : TradeType
  | SELL : TradeType
deriving DecidableEq, Repr

/-- Structure `StockData` from `src/types.ts`.  The `open` field of the source is
renamed `openPrice` because `open` is a Lean keyword. -/
structure StockData where
  id : String
  symbol : String
  name : String
  price : ℚ
  change : ℚ
  changePercent : ℚ
  openPrice : ℚ
  high : ℚ
  low : ℚ
  volume : ℚ
  eps : ℚ
  industry : String
  history : List ℚ
  obv : ℚ
  ma5 : ℚ
  ma10 : ℚ
  ma20 : ℚ
deriving DecidableEq, Repr

/-- Structure `PortfolioItem` from `src/types.ts`. -/
structure PortfolioItem where
  symbol : String
  name : String
  quantity : ℚ
  averageCost : ℚ
deriving DecidableEq, Repr

/-- Structure `TradeRecord` from `src/types.ts`; `id` is `Date.now().toString()` and
`timestamp` is `new Date()` in the source, so both are derived from a `now`
clock value supplied by the environment. -/
structure TradeRecord where
  id : String
  symbol : String
  type : TradeType
  price : ℚ
  quantity : ℚ
  amount : ℚ
  timestamp : ℕ
deriving DecidableEq, Repr

/-- Structure `Portfolio` from `src/types.ts`.  `holdings` is a JS object keyed by
symbol, modelled as a partial map. -/
structure Portfolio where
  cash : ℚ
  holdings : String → Option PortfolioItem
  history : List TradeRecord

/-- Pointwise update of a holdings map: JS `obj[k] = v` (with `v := none`
for `delete obj[k]`). -/
def setKey (m : String → Option PortfolioItem) (k : String)
    (v : Option PortfolioItem) : String → Option PortfolioItem :=
  fun s => if s = k then v else m s

/-- Function `handleTrade` from `src/App.tsx` (lines 219–270), the Ledger's
`executeTrade`.  `now` stands for the wall clock read by `Date.now()` /
`new Date()` when the trade record is created.  The source mutates a shallow
copy of the previous portfolio and returns it (or returns `prev` unchanged on
a rejected trade); here the same computation is written functionally. -/
def handleTrade (type : TradeType) (stock : StockData) (quantity : ℚ)
    (now : ℕ) (prev : Portfolio) : Portfolio :=
  let totalAmount := stock.price * quantity
  let record : TradeRecord :=
    { id := toString now, symbol := stock.symbol, type := type,
      price := stock.price, quantity := quantity, amount := totalAmount,
      timestamp := now }
  match type with
  | TradeType.BUY =>
      if prev.cash < totalAmount then prev
      else
        let holdings :=
          match prev.holdings stock.symbol with
          | some currentHolding =>
              let totalCost :=
                currentHolding.averageCost * currentHolding.quantity + totalAmount
              let newQuantity := currentHolding.quantity + quantity
              setKey prev.holdings stock.symbol
                (some { currentHolding with
                          quantity := newQuantity,
                          averageCost := totalCost / newQuantity })
          | none =>
              setKey prev.holdings stock.symbol
                (some { symbol := stock.symbol, name := stock.name,
                        quantity := quantity, averageCost := stock.price })
        { cash := prev.cash - totalAmount, holdings := holdings,
          history := prev.history ++ [record] }
  | TradeType.SELL =>
      match prev.holdings stock.symbol with
      | none => prev
      | some h =>
          if h.quantity < quantity then prev
          else
            let newQty := h.quantity - quantity
            let holdings :=
              if newQty = 0 then setKey prev.holdings stock.symbol none
              else setKey prev.holdings stock.symbol
                     (some { h with quantity := newQty })
            { cash := prev.cash + totalAmount, holdings := holdings,
              history := prev.history ++ [record] }

/-- Function `handleExecuteTrade` from `src/components/StockDetail.tsx` (lines 67–82),
restricted to its effect on the portfolio: it invokes `onTrade` (i.e.
`handleTrade`) only when `quantity > 0`, returning early otherwise. -/
def handleExecuteTrade (tradeTab : TradeType) (stock : StockData)
    (quantity : ℚ) (now : ℕ) (p : Portfolio) : Portfolio :=
  if quantity ≤ 0 then p else handleTrade tradeTab stock quantity now p

/-- One trade request, as issued by a caller of `handleTrade`. -/
structure TradeReq where
  type : TradeType
  stock : StockData
  quantity : ℚ
  now : ℕ

/-- Apply a sequence of `handleTrade` calls from left to right. -/
def applyTrades (p : Portfolio) : List TradeReq → Portfolio
  | [] => p
  | t :: ts => applyTrades (handleTrade t.type t.stock t.quantity t.now p) ts

/-- The trade preconditions of §4.3 of the specification for a single call,
evaluated against the portfolio state at the moment of the call: a positive
quantity; for BUY sufficient cash; for SELL an existing holding at least as
large as the requested quantity. -/
def validTrade (p : Portfolio) (t : TradeReq) : Prop :=
  0 < t.quantity ∧
    match t.type with
    | TradeType.BUY => t.stock.price * t.quantity ≤ p.cash
    | TradeType.SELL =>
        match p.holdings t.stock.symbol with
        | some h => t.quantity ≤ h.quantity
        | none => False

/-- A sequence of trade requests each of which satisfies the trade
preconditions in the state where it executes. -/
inductive ValidSeq : Portfolio → List TradeReq → Prop where
  | nil (p : Portfolio) : ValidSeq p []
  | cons (p : Portfolio) (t : TradeReq) (ts : List TradeReq) :
      validTrade p t →
      ValidSeq (handleTrade t.type t.stock t.quantity t.now p) ts →
      ValidSeq p (t :: ts)

/-- The partial quote consumed by `updateStockWithRealData`: its argument has
type `Partial<StockData>`, of which the function reads only `price`,
`change`, `changePercent` and `volume`.  An absent field is `none`. -/
structure PartialQuote where
  price : Option ℚ
  change : Option ℚ
  changePercent : Option ℚ
  volume : Option ℚ
deriving DecidableEq, Repr

/-- JS `a || b` for `a : number | undefined`: `b` when `a` is `undefined`
or the falsy number `0`, else `a`. -/
def orFalsy (a : Option ℚ) (b : ℚ) : ℚ :=
  match a with
  | none => b
  | some v => if v = 0 then b else v

/-- JS `Number(x.toFixed(2))`: round to the nearest multiple of `1/100`,
ties toward the larger value, exactly as `toFixed` picks the integer `n`
minimising `|n / 100 - x|` and prefers the larger `n` on a tie. -/
def round2 (x : ℚ) : ℚ :=
  (⌊x * 100 + 1 / 2⌋ : ℚ) / 100

/-- Function `calculateSMA` from `src/services/stockUtils.ts` (lines 84–89): `0` when
the data is shorter than the period, else the mean of the last `period`
entries (`data.slice(-period)`), rounded via `Number((..).toFixed(2))`. -/
def calculateSMA (data : List ℚ) (period : ℕ) : ℚ :=
  if data.length < period then 0
  else round2 ((data.drop (data.length - period)).sum / (period : ℚ))

/-- Loop body of `generateHistory`: each iteration prepends (`unshift`) the
current price and perturbs it by `(Math.random() - 0.5) * (price * 0.02)`;
`rand` supplies the `Math.random()` samples, indexed by remaining fuel. -/
def generateHistoryAux (rand : ℕ → ℚ) : ℕ → ℚ → List ℚ → List ℚ
  | 0, _, history => history
  | n + 1, price, history =>
      generateHistoryAux rand n
        (price + (rand n - 1 / 2) * (price * (2 / 100))) (price :: history)

/-- Function `generateHistory` from `src/services/stockUtils.ts` (lines 116–125): a
30-point backward random walk seeded from the current price. -/
def generateHistory (rand : ℕ → ℚ) (currentPrice : ℚ) : List ℚ :=
  generateHistoryAux rand 30 currentPrice []

/-- Function `updateStockWithRealData` from `src/services/stockUtils.ts`
(lines 128–152), the QuoteReconciler merge.  `rand` supplies the
`Math.random()` samples used when an empty history is synthesized.
Field by field, following the source:
`newPrice = realData.price || existingStock.price`; an empty history is
regenerated, otherwise `[...history.slice(1), newPrice]`; `change` and
`changePercent` use `!== undefined` checks; `volume` uses `||`;
the moving averages are recomputed from the new history; and
`obv = existingStock.obv + (realData.volume || 0)`. -/
def updateStockWithRealData (rand : ℕ → ℚ) (existingStock : StockData)
    (realData : PartialQuote) : StockData :=
  let newPrice := orFalsy realData.price existingStock.price
  let newHistory :=
    if existingStock.history.length = 0 then generateHistory rand newPrice
    else existingStock.history.drop 1 ++ [newPrice]
  { existingStock with
      price := newPrice,
      change := realData.change.getD existingStock.change,
      changePercent := realData.changePercent.getD existingStock.changePercent,
      volume := orFalsy realData.volume existingStock.volume,
      history := newHistory,
      ma5 := calculateSMA newHistory 5,
      ma10 := calculateSMA newHistory 10,
      ma20 := calculateSMA newHistory 20,
      obv := existingStock.obv + orFalsy realData.volume 0 }

/-! Concrete fixtures used to instantiate the theorems below. -/

/-- A concrete security: symbol 2330 priced at 1080. -/
def tsmc : StockData :=
  { id := "2330", symbol := "2330", name := "TSMC", price := 1080,
    change := 0, changePercent := 0, openPrice := 1080, high := 1080,
    low := 1080, volume := 0, eps := 85 / 2, industry := "semi",
    history := [], obv := 0, ma5 := 0, ma10 := 0, ma20 := 0 }

/-- A fresh portfolio with the default initial capital and no holdings. -/
def emptyPortfolio : Portfolio :=
  { cash := 5000000, holdings := fun _ => none, history := [] }

/-- A portfolio already holding 7 shares of symbol 2330 at average cost 50. -/
def portfolioWithHolding : Portfolio :=
  { cash := 5000,
    holdings := fun s =>
      if s = "2330" then
        some { symbol := "2330", name := "TSMC", quantity := 7,
               averageCost := 50 }
      else none,
    history := [] }

/-! Helper lemmas shared by the claim theorems. -/

theorem setKey_same (m : String → Option PortfolioItem) (k : String)
    (v : Option PortfolioItem) : setKey m k v k = v := by
  simp [setKey]

/-- Cash effect of an accepted BUY. -/
theorem handleTrade_buy_cash (stock : StockData) (quantity : ℚ) (now : ℕ)
    (p : Portfolio) (hcash : stock.price * quantity ≤ p.cash) :
    (handleTrade TradeType.BUY stock quantity now p).cash
      = p.cash - stock.price * quantity := by
  have hnotlt : ¬ p.cash < stock.price * quantity := not_lt.mpr hcash
  cases hh : p.holdings stock.symbol <;>
    simp [handleTrade, hnotlt, hh]

/-- Holdings effect of an accepted BUY when no holding exists yet. -/
theorem handleTrade_buy_holdings_none (stock : StockData) (quantity : ℚ)
    (now : ℕ) (p : Portfolio) (hcash : stock.price * quantity ≤ p.cash)
    (hnone : p.holdings stock.symbol = none) :
    (handleTrade TradeType.BUY stock quantity now p).holdings stock.symbol
      = some { symbol := stock.symbol, name := stock.name,
               quantity := quantity, averageCost := stock.price } := by
  have hnotlt : ¬ p.cash < stock.price * quantity := not_lt.mpr hcash
  simp [handleTrade, hnotlt, hnone, setKey]

/-- Holdings effect of an accepted BUY onto an existing holding:
weighted-average cost. -/
theorem handleTrade_buy_holdings_some (stock : StockData) (quantity : ℚ)
    (now : ℕ) (p : Portfolio) (old : PortfolioItem)
    (hcash : stock.price * quantity ≤ p.cash)
    (hold : p.holdings stock.symbol = some old) :
    (handleTrade TradeType.BUY stock quantity now p).holdings stock.symbol
      = some { old with
                 quantity := old.quantity + quantity,
                 averageCost := (old.averageCost * old.quantity
                     + stock.price * quantity) / (old.quantity + quantity) } := by
  have hnotlt : ¬ p.cash < stock.price * quantity := not_lt.mpr hcash
  simp [handleTrade, hnotlt, hold, setKey]

/-- Cash effect of an accepted SELL. -/
theorem handleTrade_sell_cash (stock : StockData) (quantity : ℚ) (now : ℕ)
    (p : Portfolio) (h : PortfolioItem)
    (hh : p.holdings stock.symbol = some h) (hq : quantity ≤ h.quantity) :
    (handleTrade TradeType.SELL stock quantity now p).cash
      = p.cash + stock.price * quantity := by
  have hnotlt : ¬ h.quantity < quantity := not_lt.mpr hq
  by_cases hz : h.quantity - quantity = 0 <;>
    simp [handleTrade, hh, hnotlt, hz]

/-- Holdings effect of an accepted SELL that empties the holding: the key is
removed. -/
theorem handleTrade_sell_holdings_zero (stock : StockData) (quantity : ℚ)
    (now : ℕ) (p : Portfolio) (h : PortfolioItem)
    (hh : p.holdings stock.symbol = some h) (hq : quantity ≤ h.quantity)
    (hz : h.quantity - quantity = 0) :
    (handleTrade TradeType.SELL stock quantity now p).holdings stock.symbol
      = none := by
  have hnotlt : ¬ h.quantity < quantity := not_lt.mpr hq
  simp [handleTrade, hh, hnotlt, hz, setKey]

/-- Holdings effect of an accepted SELL that leaves shares: quantity drops,
average cost untouched. -/
theorem handleTrade_sell_holdings_pos (stock : StockData) (quantity : ℚ)
    (now : ℕ) (p : Portfolio) (h : PortfolioItem)
    (hh : p.holdings stock.symbol = some h) (hq : quantity ≤ h.quantity)
    (hz : h.quantity - quantity ≠ 0) :
    (handleTrade TradeType.SELL stock quantity now p).holdings stock.symbol
      = some { h with quantity := h.quantity - quantity } := by
  have hnotlt : ¬ h.quantity < quantity := not_lt.mpr hq
  simp [handleTrade, hh, hnotlt, hz, setKey]

/-- C2: a rejected trade (BUY with insufficient cash, or SELL with no holding
or too small a holding) returns the input portfolio identical by value: cash,
every holding and the trade history, including its length, are unchanged. -/
theorem handleTrade_rejected_noop (type : TradeType) (stock : StockData)
    (quantity : ℚ) (now : ℕ) (p : Portfolio)
    (hrej : (type = TradeType.BUY ∧ p.cash < stock.price * quantity) ∨
      (type = TradeType.SELL ∧
        ∀ h, p.holdings stock.symbol = some h → h.quantity < quantity)) :
    handleTrade type stock quantity now p = p := by
  rcases hrej with ⟨rfl, hlt⟩ | ⟨rfl, hsell⟩
  · simp [handleTrade, hlt]
  · cases hh : p.holdings stock.symbol with
    | none => simp [handleTrade, hh]
    | some h => simp [handleTrade, hh, hsell h hh]

/-- C2 witness: a BUY of 100000 shares at 1080 against 5,000,000 cash is
rejected and leaves the portfolio untouched. -/
theorem handleTrade_rejected_noop_witness :
    handleTrade TradeType.BUY tsmc 100000 0 emptyPortfolio = emptyPortfolio :=
  handleTrade_rejected_noop TradeType.BUY tsmc 100000 0 emptyPortfolio
    (Or.inl ⟨rfl, by norm_num [tsmc, emptyPortfolio]⟩)

/-- C3 counterexample: `handleTrade` itself performs no `quantity > 0` check,
so a SELL with quantity 0 is not a no-op — it appends a `TradeRecord` to the
trade history. -/
theorem handleTrade_zero_quantity_not_noop :
    handleTrade TradeType.SELL tsmc 0 0 portfolioWithHolding
      ≠ portfolioWithHolding := by
  intro hEq
  have hlen := congrArg (fun q => q.history.length) hEq
  norm_num [handleTrade, portfolioWithHolding, tsmc] at hlen

/-- C3 amended: the `quantity > 0` precondition is enforced by the caller
`handleExecuteTrade` in `StockDetail`, which returns without invoking the
engine when `quantity ≤ 0`; at that level a non-positive quantity is a
no-op. -/
theorem handleExecuteTrade_nonpos_quantity_noop (tradeTab : TradeType)
    (stock : StockData) (quantity : ℚ) (now : ℕ) (p : Portfolio)
    (hq : quantity ≤ 0) :
    handleExecuteTrade tradeTab stock quantity now p = p := by
  simp [handleExecuteTrade, hq]

/-- C3 amended, witness: the quantity-0 SELL that mutates the engine state is
a no-op through the guarded caller. -/
theorem handleExecuteTrade_nonpos_quantity_noop_witness :
    handleExecuteTrade TradeType.SELL tsmc 0 0 portfolioWithHolding
      = portfolioWithHolding :=
  handleExecuteTrade_nonpos_quantity_noop TradeType.SELL tsmc 0 0
    portfolioWithHolding (by norm_num)

/-- C4: an accepted BUY of quantity `q` at price `p` with sufficient cash
decreases cash by exactly `p * q`; an existing holding is merged with
weighted-average cost `(oldAvg * oldQty + p * q) / (oldQty + q)` and quantity
`oldQty + q`; a fresh holding is created with quantity `q` and average cost
`p`. -/
theorem handleTrade_buy_spec (stock : StockData) (quantity : ℚ) (now : ℕ)
    (p : Portfolio) (hq : 0 < quantity)
    (hcash : stock.price * quantity ≤ p.cash) :
    (handleTrade TradeType.BUY stock quantity now p).cash
        = p.cash - stock.price * quantity ∧
    (∀ old, p.holdings stock.symbol = some old →
      (handleTrade TradeType.BUY stock quantity now p).holdings stock.symbol
        = some { old with
                   quantity := old.quantity + quantity,
                   averageCost := (old.averageCost * old.quantity
                       + stock.price * quantity)
                     / (old.quantity + quantity) }) ∧
    (p.holdings stock.symbol = none →
      (handleTrade TradeType.BUY stock quantity now p).holdings stock.symbol
        = some { symbol := stock.symbol, name := stock.name,
                 quantity := quantity, averageCost := stock.price }) :=
  ⟨handleTrade_buy_cash stock quantity now p hcash,
   fun old hold =>
     handleTrade_buy_holdings_some stock quantity now p old hcash hold,
   fun hnone =>
     handleTrade_buy_holdings_none stock quantity now p hcash hnone⟩

/-- C4 witness, the scenario of §8 of the specification: buying 1000 shares
at 1080 and then 500 more at 1100 yields quantity 1500 and average cost
`(1080*1000 + 1100*500) / 1500 = 3260/3`. -/
theorem handleTrade_buy_spec_witness :
    (handleTrade TradeType.BUY { tsmc with price := 1100 } 500 1
        (handleTrade TradeType.BUY tsmc 1000 0 emptyPortfolio)).holdings "2330"
      = some { symbol := "2330", name := "TSMC", quantity := 1500,
               averageCost := 3260 / 3 } := by
  have hfst : (handleTrade TradeType.BUY tsmc 1000 0
        emptyPortfolio).holdings "2330"
      = some { symbol := "2330", name := "TSMC", quantity := 1000,
               averageCost := 1080 } := by
    norm_num [handleTrade, setKey, emptyPortfolio, tsmc]
  have h := (handleTrade_buy_spec { tsmc with price := 1100 } 500 1
      (handleTrade TradeType.BUY tsmc 1000 0 emptyPortfolio)
      (by norm_num)
      (by norm_num [handleTrade, emptyPortfolio, tsmc])).2.1
      { symbol := "2330", name := "TSMC", quantity := 1000,
        averageCost := 1080 }
      (by simpa [tsmc] using hfst)
  simp only [tsmc] at h ⊢
  rw [h]
  norm_num

/-- C5: an accepted SELL of quantity `q` against a holding of at least `q`
increases cash by exactly `price * q`; if the holding quantity reaches
exactly 0 the holding is removed from the map entirely; otherwise the
remaining shares keep their previous average cost. -/
theorem handleTrade_sell_spec (stock : StockData) (quantity : ℚ) (now : ℕ)
    (p : Portfolio) (h : PortfolioItem) (hqpos : 0 < quantity)
    (hh : p.holdings stock.symbol = some h) (hq : quantity ≤ h.quantity) :
    (handleTrade TradeType.SELL stock quantity now p).cash
        = p.cash + stock.price * quantity ∧
    (h.quantity - quantity = 0 →
      (handleTrade TradeType.SELL stock quantity now p).holdings stock.symbol
        = none) ∧
    (h.quantity - quantity ≠ 0 →
      (handleTrade TradeType.SELL stock quantity now p).holdings stock.symbol
        = some { h with quantity := h.quantity - quantity }) :=
  ⟨handleTrade_sell_cash stock quantity now p h hh hq,
   fun hz => handleTrade_sell_holdings_zero stock quantity now p h hh hq hz,
   fun hz => handleTrade_sell_holdings_pos stock quantity now p h hh hq hz⟩

/-- C5 witness: selling 3 of 7 held shares at price 1080 raises cash by 3240
and leaves 4 shares at the unchanged average cost 50. -/
theorem handleTrade_sell_spec_witness :
    (handleTrade TradeType.SELL tsmc 3 0 portfolioWithHolding).cash
        = 5000 + 1080 * 3 ∧
    (handleTrade TradeType.SELL tsmc 3 0
        portfolioWithHolding).holdings tsmc.symbol
      = some { symbol := "2330", name := "TSMC", quantity := 7 - 3,
               averageCost := 50 } := by
  have h := handleTrade_sell_spec tsmc 3 0 portfolioWithHolding
      { symbol := "2330", name := "TSMC", quantity := 7, averageCost := 50 }
      (by norm_num) (by norm_num [portfolioWithHolding, tsmc]) (by norm_num)
  exact ⟨by simpa [portfolioWithHolding, tsmc] using h.1,
         by simpa using h.2.2 (by norm_num)⟩

/-- C6 counterexample: with a pre-existing holding of the same symbol, BUY 1
then SELL 1 at the same price does not remove the holding — the 7 previously
held shares remain (with a recomputed average cost), refuting "leaves no
holding for that symbol" for arbitrary portfolios. -/
theorem buy_sell_roundtrip_keeps_prior_holding :
    (handleTrade TradeType.SELL tsmc 1 1
        (handleTrade TradeType.BUY tsmc 1 0 portfolioWithHolding)).holdings
      "2330" ≠ none := by
  norm_num [handleTrade, setKey, portfolioWithHolding, tsmc]
  exact Option.some_ne_none _

/-- C6 amended: for a portfolio with **no existing holding** of the symbol,
enough cash, and `q > 0`, `executeTrade(BUY, q)` followed by
`executeTrade(SELL, q)` at the same price restores cash to exactly its
original value and leaves no holding for the symbol. -/
theorem buy_sell_roundtrip_fresh (stock : StockData) (quantity : ℚ)
    (now1 now2 : ℕ) (p : Portfolio) (hq : 0 < quantity)
    (hcash : stock.price * quantity ≤ p.cash)
    (hnone : p.holdings stock.symbol = none) :
    (handleTrade TradeType.SELL stock quantity now2
        (handleTrade TradeType.BUY stock quantity now1 p)).cash = p.cash ∧
    (handleTrade TradeType.SELL stock quantity now2
        (handleTrade TradeType.BUY stock quantity now1 p)).holdings
      stock.symbol = none := by
  have hbuyCash := handleTrade_buy_cash stock quantity now1 p hcash
  have hbuyHold :=
    handleTrade_buy_holdings_none stock quantity now1 p hcash hnone
  constructor
  · rw [handleTrade_sell_cash stock quantity now2 _ _ hbuyHold (by simp),
        hbuyCash]
    ring
  · exact handleTrade_sell_holdings_zero stock quantity now2 _ _ hbuyHold
      (by simp) (by simp)

/-- C6 witness: buying and then selling 1000 shares of 2330 at 1080 from a
fresh 5,000,000-cash portfolio restores the cash exactly and leaves no
holding. -/
theorem buy_sell_roundtrip_fresh_witness :
    (handleTrade TradeType.SELL tsmc 1000 1
        (handleTrade TradeType.BUY tsmc 1000 0 emptyPortfolio)).cash
      = emptyPortfolio.cash ∧
    (handleTrade TradeType.SELL tsmc 1000 1
        (handleTrade TradeType.BUY tsmc 1000 0 emptyPortfolio)).holdings
      tsmc.symbol = none :=
  buy_sell_roundtrip_fresh tsmc 1000 0 1 emptyPortfolio (by norm_num)
    (by norm_num [tsmc, emptyPortfolio]) (by simp [emptyPortfolio])

/-- Single-step preservation of non-negative cash by a trade satisfying the
preconditions, for a security with non-negative price. -/
theorem handleTrade_cash_nonneg_step (p : Portfolio) (t : TradeReq)
    (h0 : 0 ≤ p.cash) (hpr : 0 ≤ t.stock.price) (hv : validTrade p t) :
    0 ≤ (handleTrade t.type t.stock t.quantity t.now p).cash := by
  obtain ⟨hq, hrest⟩ := hv
  cases ht : t.type with
  | BUY =>
      rw [ht] at hrest
      rw [handleTrade_buy_cash t.stock t.quantity t.now p hrest]
      linarith
  | SELL =>
      rw [ht] at hrest
      cases hh : p.holdings t.stock.symbol with
      | none => rw [hh] at hrest; exact absurd hrest not_false
      | some h =>
          rw [hh] at hrest
          rw [handleTrade_sell_cash t.stock t.quantity t.now p h hh hrest]
          have : 0 ≤ t.stock.price * t.quantity :=
            mul_nonneg hpr hq.le
          linarith

/-- A valid sequence restricted to a prefix is still valid. -/
theorem validSeq_append_left (p : Portfolio) (xs ys : List TradeReq)
    (hv : ValidSeq p (xs ++ ys)) : ValidSeq p xs := by
  induction xs generalizing p with
  | nil => exact ValidSeq.nil p
  | cons t ts ih =>
      cases hv with
      | cons _ _ _ hval hrest => exact ValidSeq.cons _ _ _ hval (ih _ hrest)

/-- Non-negative cash is preserved along any valid sequence of trades against
non-negatively priced securities. -/
theorem applyTrades_cash_nonneg (ts : List TradeReq) (p : Portfolio)
    (h0 : 0 ≤ p.cash) (hpr : ∀ t ∈ ts, 0 ≤ t.stock.price)
    (hv : ValidSeq p ts) : 0 ≤ (applyTrades p ts).cash := by
  induction ts generalizing p with
  | nil => simpa [applyTrades] using h0
  | cons t ts ih =>
      cases hv with
      | cons _ _ _ hval hrest =>
          exact ih _
            (handleTrade_cash_nonneg_step p t h0 (hpr t (by simp)) hval)
            (fun u hu => hpr u (by simp [hu])) hrest

/-- C1: starting from non-negative cash, after every call of a sequence of
`executeTrade` calls that each satisfy the trade preconditions, against
securities with non-negative prices, the portfolio's cash is non-negative.
The state "after every call" is the state after an arbitrary prefix `pre` of
the full sequence `pre ++ post`. -/
theorem cash_nonneg_after_valid_trades (p : Portfolio)
    (pre post : List TradeReq) (h0 : 0 ≤ p.cash)
    (hpr : ∀ t ∈ pre ++ post, 0 ≤ t.stock.price)
    (hv : ValidSeq p (pre ++ post)) : 0 ≤ (applyTrades p pre).cash :=
  applyTrades_cash_nonneg pre p h0
    (fun t ht => hpr t (List.mem_append_left _ ht))
    (validSeq_append_left p pre post hv)

/-- C1 witness: one valid BUY of 1000 shares at 1080 from 5,000,000 cash
leaves non-negative cash. -/
theorem cash_nonneg_after_valid_trades_witness :
    0 ≤ (applyTrades emptyPortfolio
      [{ type := TradeType.BUY, stock := tsmc, quantity := 1000,
         now := 0 }]).cash :=
  cash_nonneg_after_valid_trades emptyPortfolio
    [{ type := TradeType.BUY, stock := tsmc, quantity := 1000, now := 0 }] []
    (by norm_num [emptyPortfolio])
    (by intro t ht
        simp only [List.append_nil, List.mem_singleton] at ht
        subst ht
        norm_num [tsmc])
    (ValidSeq.cons _ _ _
      ⟨by norm_num, by norm_num [tsmc, emptyPortfolio]⟩ (ValidSeq.nil _))

/-- Each loop iteration of the synthesized random walk adds one point. -/
theorem generateHistoryAux_length (rand : ℕ → ℚ) :
    ∀ (n : ℕ) (p : ℚ) (h : List ℚ),
      (generateHistoryAux rand n p h).length = n + h.length := by
  intro n
  induction n with
  | zero => intro p h; simp [generateHistoryAux]
  | succ k ih =>
      intro p h
      simp [generateHistoryAux, ih]
      omega

/-- The synthesized history has exactly 30 points, whatever the random
samples. -/
theorem generateHistory_length (rand : ℕ → ℚ) (p : ℚ) :
    (generateHistory rand p).length = 30 := by
  simp [generateHistory, generateHistoryAux_length]

/-- One merge keeps the history within the 30-point window. -/
theorem merge_history_length (rand : ℕ → ℚ) (ex : StockData)
    (q : PartialQuote) (hlen : ex.history.length ≤ 30) :
    (updateStockWithRealData rand ex q).history.length ≤ 30 := by
  by_cases h : ex.history.length = 0
  · simp [updateStockWithRealData, h, generateHistory_length]
  · simp [updateStockWithRealData, h]
    omega

/-- Any number of merges keeps the history within the 30-point window. -/
theorem merge_foldl_history_length (rand : ℕ → ℚ) (qs : List PartialQuote) :
    ∀ ex : StockData, ex.history.length ≤ 30 →
      (qs.foldl (updateStockWithRealData rand) ex).history.length ≤ 30 := by
  induction qs with
  | nil => intro ex h; simpa using h
  | cons q qs ih =>
      intro ex h
      exact ih _ (merge_history_length rand ex q h)

/-- C8: starting from a record whose history has at most 30 entries, any
sequence of merges keeps the history at a length of at most 30; a merge on an
empty history produces exactly 30 synthesized points, and a merge on a
non-empty history drops the oldest entry and appends the effective price. -/
theorem merge_history_window (rand : ℕ → ℚ) (ex : StockData)
    (qs : List PartialQuote) (q : PartialQuote)
    (hlen : ex.history.length ≤ 30) :
    (qs.foldl (updateStockWithRealData rand) ex).history.length ≤ 30 ∧
    (ex.history = [] →
      (updateStockWithRealData rand ex q).history.length = 30) ∧
    (ex.history ≠ [] →
      (updateStockWithRealData rand ex q).history
        = ex.history.drop 1 ++ [orFalsy q.price ex.price]) := by
  refine ⟨merge_foldl_history_length rand qs ex hlen, ?_, ?_⟩
  · intro hnil
    simp [updateStockWithRealData, hnil, generateHistory_length]
  · intro hne
    have h0 : ¬ ex.history.length = 0 := by
      simpa [List.length_eq_zero] using hne
    simp [updateStockWithRealData, h0]

/-- C8 witness: merging an all-absent quote into the empty-history fixture
yields exactly 30 history points. -/
theorem merge_history_window_witness :
    (updateStockWithRealData (fun _ => 1 / 2) tsmc
        { price := none, change := none, changePercent := none,
          volume := none }).history.length = 30 :=
  (merge_history_window (fun _ => 1 / 2) tsmc []
      { price := none, change := none, changePercent := none, volume := none }
      (by simp [tsmc])).2.1 (by simp [tsmc])

/-- C7 counterexample: the source resolves the price with
`realData.price || existingStock.price`, and `0` is falsy in JS, so a quote
whose `price` field is present with value `0` does **not** set the effective
price to `0`: the existing price `1080` is retained. -/
theorem merge_zero_price_retained :
    (updateStockWithRealData (fun _ => 0) { tsmc with history := [1, 2, 3] }
        { price := some 0, change := none, changePercent := none,
          volume := none }).price = 1080 ∧ (1080 : ℚ) ≠ 0 :=
  ⟨by norm_num [updateStockWithRealData, orFalsy, tsmc], by norm_num⟩

/-- C7 amended: the effective price is the update's price exactly when that
field is present **and non-zero**; an absent price — and likewise a present
price equal to `0`, which is falsy in JS — leaves the existing price
unchanged. -/
theorem merge_price_resolution (rand : ℕ → ℚ) (ex : StockData)
    (q : PartialQuote) :
    (updateStockWithRealData rand ex q).price =
      match q.price with
      | none => ex.price
      | some v => if v = 0 then ex.price else v := by
  cases hq : q.price <;> simp [updateStockWithRealData, orFalsy, hq]

/-- Rounding to two decimals never increases a value by more than `1/200`. -/
theorem round2_le (x : ℚ) : round2 x ≤ x + 1 / 200 := by
  unfold round2
  rw [div_le_iff₀ (by norm_num : (0:ℚ) < 100)]
  have h : (⌊x * 100 + 1 / 2⌋ : ℚ) ≤ x * 100 + 1 / 2 := Int.floor_le _
  linarith

/-- Rounding to two decimals never decreases a value by more than `1/200`. -/
theorem le_round2 (x : ℚ) : x - 1 / 200 ≤ round2 x := by
  unfold round2
  rw [le_div_iff₀ (by norm_num : (0:ℚ) < 100)]
  have h : x * 100 + 1 / 2 < (⌊x * 100 + 1 / 2⌋ : ℚ) + 1 := by
    exact_mod_cast Int.lt_floor_add_one (x * 100 + 1 / 2)
  linarith

/-- C9 counterexample: with the last five history entries all equal to
`1.004`, the rounded mean is `1.00`, which is strictly **below** the minimum
of the window, refuting `ma5 ≥ min(last 5 history)` as stated. -/
theorem sma_round_below_min :
    calculateSMA [251 / 250, 251 / 250, 251 / 250, 251 / 250, 251 / 250] 5
        = 1 ∧
      ¬ ((251 : ℚ) / 250 ≤ 1) :=
  ⟨by norm_num [calculateSMA, round2], by norm_num⟩

/-- C9 amended: because the mean of the last `period` entries is rounded to
two decimal places, the SMA lies between the window's minimum minus `1/200`
and its maximum plus `1/200` (any lower bound `lo` and upper bound `hi` of
the window give `lo - 1/200 ≤ sma ≤ hi + 1/200`); the unrounded mean itself
lies within `[lo, hi]`.  This covers `ma5`, `ma10` and `ma20`, which are
`calculateSMA` at periods 5, 10 and 20. -/
theorem calculateSMA_bounds (data : List ℚ) (period : ℕ) (lo hi : ℚ)
    (hp : 1 ≤ period) (hlen : period ≤ data.length)
    (hlo : ∀ x ∈ data.drop (data.length - period), lo ≤ x)
    (hhi : ∀ x ∈ data.drop (data.length - period), x ≤ hi) :
    lo - 1 / 200 ≤ calculateSMA data period ∧
      calculateSMA data period ≤ hi + 1 / 200 := by
  have hnot : ¬ data.length < period := not_lt.mpr hlen
  have hslice : (data.drop (data.length - period)).length = period := by
    rw [List.length_drop]
    omega
  have hpQ : (0:ℚ) < (period : ℚ) := by
    exact_mod_cast Nat.lt_of_lt_of_le Nat.zero_lt_one hp
  have hsumlo := List.card_nsmul_le_sum
    (data.drop (data.length - period)) lo hlo
  have hsumhi := List.sum_le_card_nsmul
    (data.drop (data.length - period)) hi hhi
  rw [hslice, nsmul_eq_mul] at hsumlo hsumhi
  have hmeanlo :
      lo ≤ (data.drop (data.length - period)).sum / (period : ℚ) := by
    rw [le_div_iff₀ hpQ]
    linarith
  have hmeanhi :
      (data.drop (data.length - period)).sum / (period : ℚ) ≤ hi := by
    rw [div_le_iff₀ hpQ]
    linarith
  unfold calculateSMA
  rw [if_neg hnot]
  exact ⟨le_trans (by linarith) (le_round2
          ((data.drop (data.length - period)).sum / (period : ℚ))),
        le_trans (round2_le
          ((data.drop (data.length - period)).sum / (period : ℚ)))
          (by linarith)⟩

/-- C9 amended, witness: the 5-period SMA of `[1, 2, 3, 4, 5]` lies within
`[1 - 1/200, 5 + 1/200]`. -/
theorem calculateSMA_bounds_witness :
    1 - 1 / 200 ≤ calculateSMA [1, 2, 3, 4, 5] 5 ∧
      calculateSMA [1, 2, 3, 4, 5] 5 ≤ 5 + 1 / 200 :=
  calculateSMA_bounds [1, 2, 3, 4, 5] 5 1 5 (by norm_num) (by norm_num)
    (by intro x hx
        simp only [List.length_cons, List.length_nil] at hx
        norm_num at hx
        rcases hx with rfl | rfl | rfl | rfl | rfl <;> norm_num)
    (by intro x hx
        simp only [List.length_cons, List.length_nil] at hx
        norm_num at hx
        rcases hx with rfl | rfl | rfl | rfl | rfl <;> norm_num)

/-- C10: a merge changes only the market fields and derived analytics — the
identity and day fields `id`, `symbol`, `name`, `industry`, `eps`, `open`,
`high` and `low` of the output equal those of the input. -/
theorem merge_frame (rand : ℕ → ℚ) (ex : StockData) (q : PartialQuote) :
    (updateStockWithRealData rand ex q).id = ex.id ∧
    (updateStockWithRealData rand ex q).symbol = ex.symbol ∧
    (updateStockWithRealData rand ex q).name = ex.name ∧
    (updateStockWithRealData rand ex q).industry = ex.industry ∧
    (updateStockWithRealData rand ex q).eps = ex.eps ∧
    (updateStockWithRealData rand ex q).openPrice = ex.openPrice ∧
    (updateStockWithRealData rand ex q).high = ex.high ∧
    (updateStockWithRealData rand ex q).low = ex.low :=
  ⟨rfl, rfl, rfl, rfl, rfl, rfl, rfl, rfl⟩
